import Mathlib

/-!
Shallow embedding of the AWS batch orchestration logic of
production/luigihacks/autobatch.py: the submission loop of
AutoBatchTask.execute, the monitoring loop AutoBatchTask._monitor_batch_jobs,
the failure-rate breaker AutoBatchTask._assert_success, and the test-mode
truncation in AutoBatchTask.run.

Embedding conventions:
- a job parameter dict is a JobDescriptor carrying its two reserved fields;
- the handle returned by submit_job is embedded as the position of the
  descriptor in the job_params list (handles are opaque, fresh per submission);
- a job status is the raw string compared against "SUCCEEDED", "FAILED" and
  "RUNNING" by the source;
- the per-cycle defaultdict stats is embedded as the list of tallied status
  strings, one entry per executed stats[status] += 1, so that
  sum(stats.values()) is the list length, stats[k] is the count of k, and
  len(stats) (number of distinct keys) is the length of the deduplicated list;
- time is abstracted: _assert_timeout is driven by a boolean schedule, and
  get_job_status by a schedule of statuses per cycle and job id;
- BatchClient (module luigihacks.batchclient) is not part of the sources; its
  hard_terminate is modelled from the spec as ending the run, and its status
  query error behaviour is modelled from the spec below (queryErrorStatus).
-/

namespace Autobatch

/-- One element of job_params as returned by prepare: the reserved field done
marks work whose result already exists and must be skipped; outinfo points at
the output location. -/
structure JobDescriptor where
  done : Bool
  outinfo : String
  deriving DecidableEq, Inhabited, Repr

/-- Statuses tallied by the monitoring loop, from the membership test on line
226 of autobatch.py: status in SUCCEEDED, FAILED, RUNNING. -/
def isTallied (st : String) : Bool :=
  st == "SUCCEEDED" || st == "FAILED" || st == "RUNNING"

/-- Terminal statuses, from the membership test on line 246 of autobatch.py:
status in SUCCEEDED, FAILED. -/
def isTerminal (st : String) : Bool :=
  st == "SUCCEEDED" || st == "FAILED"

/-- A termination request issued to the batch client: hard_terminate over the
whole job_ids list, or terminate_job on a single job id. -/
inductive TermCall where
  | hard (jobIds : List Nat) (reason : String)
  | single (jobId : Nat) (reason : String)
  deriving DecidableEq, Repr

/-- How a monitored run ends. The batchclient module is not under src/, so
hard_terminate is modelled from the spec: a hard_terminate call ends the run
(deadlineExceeded for the timeout breach, thresholdBreached for the
failure-rate breach), and the raise of BatchJobException in the final re-check
ends it as unexplainedJob, propagating to the caller. outOfFuel is a model
artifact for schedules that keep the while loop running beyond the fuel
supplied to the model. -/
inductive Outcome where
  | completed
  | deadlineExceeded
  | thresholdBreached
  | unexplainedJob
  | outOfFuel
  deriving DecidableEq, Repr

/-- The failure rate computed on lines 260-261 of autobatch.py:
stats of key FAILED divided by sum(stats.values()). In the source this is
float division; it is embedded over the rationals. In Lean division by zero
yields 0 where Python would raise ZeroDivisionError; the guard on lines 233
and 254 means the source only ever divides by a positive total. -/
def failure_rate_of (stats : List String) : ℚ :=
  (stats.count "FAILED" : ℚ) / (stats.length : ℚ)

/-- AutoBatchTask._assert_success, lines 258-265 of autobatch.py. Returns the
hard_terminate call it issues, if any: none when
failure_rate is at most 1 - success_rate, otherwise the bulk termination of
every job id with the reason string embedding int(failure_rate*100). -/
def assert_success (success_rate : ℚ) (job_ids : List Nat)
    (stats : List String) : Option TermCall :=
  let failure_rate := failure_rate_of stats
  if failure_rate ≤ 1 - success_rate then none
  else some (TermCall.hard job_ids
    ("Exiting due to high failure rate: "
      ++ toString (Rat.floor (failure_rate * 100)) ++ "%"))

/-- Accumulator for one pass of the per-job status loop of
_monitor_batch_jobs, lines 223-231: the tallied statuses of this cycle, the
done_jobs set, and the job ids queried so far this pass. -/
structure CycleOut where
  stats : List String
  done : Finset Nat
  queried : List Nat
  deriving DecidableEq

/-- Body of the per-job status check, lines 223-231 of autobatch.py, for one
job id: query the status; statuses outside SUCCEEDED, FAILED, RUNNING are
skipped; tallied statuses are added to stats; RUNNING does not mark the job
done; SUCCEEDED and FAILED add the id to done_jobs. -/
def pollStep (status : Nat → String) (acc : CycleOut) (id_ : Nat) : CycleOut :=
  let st := status id_
  if isTallied st then
    if st == "RUNNING" then ⟨acc.stats ++ [st], acc.done, acc.queried ++ [id_]⟩
    else ⟨acc.stats ++ [st], insert id_ acc.done, acc.queried ++ [id_]⟩
  else ⟨acc.stats, acc.done, acc.queried ++ [id_]⟩

/-- One monitoring-cycle pass over every id in job_ids, lines 222-231: the
stats dict starts empty each cycle, done_jobs carries over, and the loop on
line 223 iterates over all of job_ids. -/
def pollCycle (status : Nat → String) (job_ids : List Nat)
    (done : Finset Nat) : CycleOut :=
  job_ids.foldl (pollStep status) ⟨[], done, []⟩

/-- The reason string of the final re-check, line 240 of autobatch.py. -/
def lastCheckReason : String := "Jobs should no longer be running"

/-- Accumulator for the final re-check loop, lines 241-250: tallied terminal
statuses, the unexplained_jobs flag, the terminate_job calls issued, and the
job ids queried. -/
structure FinalScan where
  stats : List String
  unexplained : Bool
  terms : List TermCall
  queried : List Nat
  deriving DecidableEq

/-- Body of the final re-check, lines 243-250 of autobatch.py, for one job
id: a status outside SUCCEEDED, FAILED sets unexplained_jobs and issues
terminate_job for that id; a terminal status is tallied. -/
def finalStep (status : Nat → String) (acc : FinalScan) (id_ : Nat) :
    FinalScan :=
  let st := status id_
  if isTerminal st then
    ⟨acc.stats ++ [st], acc.unexplained, acc.terms, acc.queried ++ [id_]⟩
  else
    ⟨acc.stats, true, acc.terms ++ [TermCall.single id_ lastCheckReason],
      acc.queried ++ [id_]⟩

/-- The final re-check loop over every job id, lines 241-250. -/
def finalScan (status : Nat → String) (job_ids : List Nat) : FinalScan :=
  job_ids.foldl (finalStep status) ⟨[], false, [], []⟩

/-- End of _monitor_batch_jobs after the while loop exits, lines 239-255:
re-query every handle once; if any is non-terminal, raise BatchJobException
(after the terminate_job calls already made); otherwise, if the stats dict is
non-empty, apply _assert_success one last time. -/
def finalCheck (status : Nat → String) (success_rate : ℚ)
    (job_ids : List Nat) : Outcome × List TermCall :=
  let scan := finalScan status job_ids
  if scan.unexplained then (Outcome.unexplainedJob, scan.terms)
  else if 0 < scan.stats.dedup.length then
    match assert_success success_rate job_ids scan.stats with
    | some tc => (Outcome.thresholdBreached, scan.terms ++ [tc])
    | none => (Outcome.completed, scan.terms)
  else (Outcome.completed, scan.terms)

/-- AutoBatchTask._monitor_batch_jobs, lines 210-255 of autobatch.py, with
fuel bounding the number of while-loop iterations the model unfolds. status c
i is the answer of get_job_status for job i in round c; timed_out c says
whether the _assert_timeout check of cycle c breaches. Per source order each
iteration: while condition on the pending count; _assert_timeout (breach
hard-terminates with the line 276 reason and, modelled from the spec, ends
the run); the per-job status loop; the guarded _assert_success (a breach ends
the run); sleep and repeat. On normal exit the final re-check runs with the
status answers of the current round. -/
def monitor_batch_jobs (status : Nat → Nat → String) (timed_out : Nat → Bool)
    (success_rate : ℚ) (job_ids : List Nat) :
    Nat → Nat → Finset Nat → Outcome × List TermCall
  | 0, cycle, done =>
    if 0 < job_ids.length - done.card then (Outcome.outOfFuel, [])
    else finalCheck (status cycle) success_rate job_ids
  | fuel + 1, cycle, done =>
    if 0 < job_ids.length - done.card then
      if timed_out cycle then
        (Outcome.deadlineExceeded,
          [TermCall.hard job_ids "Impending worker timeout, so killing live tasks"])
      else
        let out := pollCycle (status cycle) job_ids done
        if 0 < out.stats.dedup.length then
          match assert_success success_rate job_ids out.stats with
          | some tc => (Outcome.thresholdBreached, [tc])
          | none =>
            monitor_batch_jobs status timed_out success_rate job_ids fuel
              (cycle + 1) out.done
        else
          monitor_batch_jobs status timed_out success_rate job_ids fuel
            (cycle + 1) out.done
    else finalCheck (status cycle) success_rate job_ids

/-- Done-jobs set after k monitoring cycles of the loop body, feeding
pollCycle with the status schedule of each round in turn. -/
def doneSeq (status : Nat → Nat → String) (job_ids : List Nat) :
    Nat → Finset Nat
  | 0 => ∅
  | k + 1 => (pollCycle (status k) job_ids (doneSeq status job_ids k)).done

/-- Submission loop of AutoBatchTask.execute, lines 180-206 of autobatch.py,
from list position i. Per source order for each descriptor: _assert_timeout
(line 182; a breach hard-terminates and, modelled from the spec, ends the
run, flagged here as a true second component); skip when done (line 183);
break when max_runs is set and the enumerate index i has reached it (line
186); otherwise submit and record the handle. Returns the submitted handles
in order and the aborted flag. -/
def submit_from (timed_out : Nat → Bool) (max_runs : Option Nat) :
    Nat → List JobDescriptor → List Nat × Bool
  | _, [] => ([], false)
  | i, p :: rest =>
    if timed_out i then ([], true)
    else if p.done then submit_from timed_out max_runs (i + 1) rest
    else
      match max_runs with
      | some n =>
        if n ≤ i then ([], false)
        else
          let r := submit_from timed_out max_runs (i + 1) rest
          (i :: r.1, r.2)
      | none =>
        let r := submit_from timed_out max_runs (i + 1) rest
        (i :: r.1, r.2)

/-- The whole submission phase of execute, starting at enumerate index 0. -/
def submit_jobs (timed_out : Nat → Bool) (max_runs : Option Nat)
    (job_params : List JobDescriptor) : List Nat × Bool :=
  submit_from timed_out max_runs 0 job_params

/-- Default of the test parameter, line 90 of autobatch.py. -/
def testDefault : Bool := true

/-- Test-mode truncation in AutoBatchTask.run, lines 107-109 of autobatch.py:
when test is set and more than 2 parameter sets were prepared, job_params is
reassigned to its first two elements before execute and combine see it. -/
def run_truncate (test : Bool) (job_params : List JobDescriptor) :
    List JobDescriptor :=
  if test then
    (if job_params.length > 2 then job_params.take 2 else job_params)
  else job_params

/-- Modelled from the spec: BatchClient.get_job_status lives in
luigihacks.batchclient, which is not under src/. Per the spec, a transient
backend error during a single-job status query (StatusQueryError) is treated
by the orchestrator as status unknown this cycle, that is, it surfaces to the
monitoring loop as a status outside SUCCEEDED, FAILED and RUNNING, which the
membership test on line 226 then skips. This string stands for that surfaced
answer of a failed query. -/
def queryErrorStatus : String := "STATUS_QUERY_ERROR"

/-!
Helper lemmas shared by the claim theorems.
-/

theorem isTallied_iff (st : String) :
    isTallied st = true ↔
      st = "SUCCEEDED" ∨ st = "FAILED" ∨ st = "RUNNING" := by
  simp [isTallied, or_assoc]

theorem isTerminal_iff (st : String) :
    isTerminal st = true ↔ st = "SUCCEEDED" ∨ st = "FAILED" := by
  simp [isTerminal]

theorem isTerminal_of_tallied_not_running (st : String)
    (h1 : isTallied st = true) (h2 : (st == "RUNNING") = false) :
    isTerminal st = true := by
  rcases (isTallied_iff st).mp h1 with h | h | h
  · simp [isTerminal, h]
  · simp [isTerminal, h]
  · simp [h] at h2

theorem isTallied_of_terminal (st : String) (h : isTerminal st = true) :
    isTallied st = true := by
  rcases (isTerminal_iff st).mp h with h | h <;> simp [isTallied, h]

/-- Closed form of one full pass of the per-job status loop, for any starting
accumulator: the queried ids are all of job_ids, the tally is the list of
tallied statuses in order, and done_jobs grows by exactly the ids whose
status this cycle is terminal. -/
theorem foldl_pollStep (status : Nat → String) (ids : List Nat) :
    ∀ acc : CycleOut,
      ids.foldl (pollStep status) acc =
        ⟨acc.stats ++ (ids.map status).filter isTallied,
         acc.done ∪ (ids.filter (fun i => isTerminal (status i))).toFinset,
         acc.queried ++ ids⟩ := by
  induction ids with
  | nil => intro acc; simp
  | cons a ids ih =>
    intro acc
    rw [List.foldl_cons, ih (pollStep status acc a)]
    by_cases h1 : isTallied (status a)
    · by_cases h2 : (status a == "RUNNING") = true
      · have hterm : isTerminal (status a) = false := by
          have hst : status a = "RUNNING" := by simpa using h2
          rw [hst]; decide
        have hps : pollStep status acc a =
            ⟨acc.stats ++ [status a], acc.done, acc.queried ++ [a]⟩ := by
          simp [pollStep, h1, h2]
        rw [hps]
        simp [List.filter_cons, h1, hterm, List.append_assoc]
      · have h2' : (status a == "RUNNING") = false := by
          simpa using h2
        have hterm := isTerminal_of_tallied_not_running (status a) h1 h2'
        have hps : pollStep status acc a =
            ⟨acc.stats ++ [status a], insert a acc.done,
              acc.queried ++ [a]⟩ := by
          simp [pollStep, h1, h2']
        rw [hps]
        simp [List.filter_cons, h1, hterm, List.append_assoc,
          Finset.insert_union]
    · have h1' : isTallied (status a) = false := by simpa using h1
      have hterm : isTerminal (status a) = false := by
        by_contra hc
        have := isTallied_of_terminal (status a) (by simpa using hc)
        simp [this] at h1'
      have hps : pollStep status acc a =
          ⟨acc.stats, acc.done, acc.queried ++ [a]⟩ := by
        simp [pollStep, h1']
      rw [hps]
      simp [List.filter_cons, h1', hterm, List.append_assoc]

theorem pollCycle_eq (status : Nat → String) (job_ids : List Nat)
    (done : Finset Nat) :
    pollCycle status job_ids done =
      ⟨(job_ids.map status).filter isTallied,
       done ∪ (job_ids.filter (fun i => isTerminal (status i))).toFinset,
       job_ids⟩ := by
  rw [pollCycle, foldl_pollStep]
  simp

/-- Every status string in a cycle tally is one of the three tallied ones. -/
theorem pollCycle_stats_tallied (status : Nat → String) (job_ids : List Nat)
    (done : Finset Nat) :
    ∀ s ∈ (pollCycle status job_ids done).stats, isTallied s = true := by
  rw [pollCycle_eq]
  intro s hs
  exact (List.mem_filter.mp hs).2

/-- For a list of tallied statuses, the length is the sum of the SUCCEEDED,
FAILED and RUNNING counts: this is sum(stats.values()) seen through the keys. -/
theorem length_eq_count_sum (l : List String)
    (hl : ∀ s ∈ l, isTallied s = true) :
    l.length =
      l.count "SUCCEEDED" + l.count "FAILED" + l.count "RUNNING" := by
  induction l with
  | nil => simp
  | cons a l ih =>
    have ha := hl a (by simp)
    have hrest : ∀ s ∈ l, isTallied s = true := fun s hs => hl s (by simp [hs])
    rcases (isTallied_iff a).mp ha with h | h | h <;>
      simp [List.count_cons, h, ih hrest] <;> omega

theorem assert_success_none_iff (sr : ℚ) (job_ids : List Nat)
    (t : List String) :
    assert_success sr job_ids t = none ↔ failure_rate_of t ≤ 1 - sr := by
  by_cases h : failure_rate_of t ≤ 1 - sr <;> simp [assert_success, h]

theorem assert_success_some (sr : ℚ) (job_ids : List Nat) (t : List String)
    (h : 1 - sr < failure_rate_of t) :
    assert_success sr job_ids t =
      some (TermCall.hard job_ids
        ("Exiting due to high failure rate: "
          ++ toString (Rat.floor (failure_rate_of t * 100)) ++ "%")) := by
  simp [assert_success, not_le.mpr h]

/-!
Claim theorems.
-/

/-- C1: for every monitoring cycle whose tally is non-empty, the breaker
computes the failure rate as the FAILED count divided by the sum of the
SUCCEEDED, FAILED and RUNNING counts of the tally, and it issues the bulk
termination of all handles, with the reason string embedding the failure
percentage, exactly when the failure rate exceeds 1 - success_rate; when the
failure rate is at most 1 - success_rate no termination is issued. -/
theorem c1_failure_rate_breaker (status : Nat → String) (job_ids : List Nat)
    (done : Finset Nat) (sr : ℚ) (t : List String)
    (ht : t = (pollCycle status job_ids done).stats) (_hne : t ≠ []) :
    failure_rate_of t =
        (t.count "FAILED" : ℚ) /
          ((t.count "SUCCEEDED" + t.count "FAILED" + t.count "RUNNING" : ℕ) :
            ℚ) ∧
      (1 - sr < failure_rate_of t →
        assert_success sr job_ids t =
          some (TermCall.hard job_ids
            ("Exiting due to high failure rate: "
              ++ toString (Rat.floor (failure_rate_of t * 100)) ++ "%"))) ∧
      (failure_rate_of t ≤ 1 - sr → assert_success sr job_ids t = none) := by
  have hsum : t.length =
      t.count "SUCCEEDED" + t.count "FAILED" + t.count "RUNNING" :=
    length_eq_count_sum t
      (by rw [ht]; exact pollCycle_stats_tallied status job_ids done)
  refine ⟨?_, fun h => assert_success_some sr job_ids t h,
    fun h => (assert_success_none_iff sr job_ids t).mpr h⟩
  rw [failure_rate_of, hsum]

/-- Witness for c1_failure_rate_breaker: one FAILED and two RUNNING jobs with
success_rate 1 trip the breaker, tally drawn from a concrete cycle. -/
theorem c1_failure_rate_breaker_witness :
    failure_rate_of ["FAILED", "RUNNING", "RUNNING"] =
        ((["FAILED", "RUNNING", "RUNNING"] : List String).count "FAILED" : ℚ) /
          (((["FAILED", "RUNNING", "RUNNING"] : List String).count "SUCCEEDED"
              + (["FAILED", "RUNNING", "RUNNING"] : List String).count "FAILED"
              + (["FAILED", "RUNNING", "RUNNING"] : List String).count "RUNNING"
              : ℕ) : ℚ) ∧
      (1 - 1 < failure_rate_of ["FAILED", "RUNNING", "RUNNING"] →
        assert_success 1 [0, 1, 2] ["FAILED", "RUNNING", "RUNNING"] =
          some (TermCall.hard [0, 1, 2]
            ("Exiting due to high failure rate: "
              ++ toString
                  (Rat.floor
                    (failure_rate_of ["FAILED", "RUNNING", "RUNNING"] * 100))
              ++ "%"))) ∧
      (failure_rate_of ["FAILED", "RUNNING", "RUNNING"] ≤ 1 - 1 →
        assert_success 1 [0, 1, 2] ["FAILED", "RUNNING", "RUNNING"] = none) :=
  c1_failure_rate_breaker (fun i => if i = 0 then "FAILED" else "RUNNING")
    [0, 1, 2] ∅ 1 ["FAILED", "RUNNING", "RUNNING"] (by decide) (by decide)

/-- C9: whenever the guard len(stats) > 0 holds for a cycle tally, the
denominator of the failure-rate division, which is the sum of the SUCCEEDED,
FAILED and RUNNING counts, is strictly positive, so the division never
divides by zero. -/
theorem c9_breaker_denominator_positive (status : Nat → String)
    (job_ids : List Nat) (done : Finset Nat)
    (h : 0 < (pollCycle status job_ids done).stats.dedup.length) :
    0 < (pollCycle status job_ids done).stats.count "SUCCEEDED" +
        (pollCycle status job_ids done).stats.count "FAILED" +
        (pollCycle status job_ids done).stats.count "RUNNING" ∧
      (((pollCycle status job_ids done).stats.length : ℚ) ≠ 0) := by
  have hne : (pollCycle status job_ids done).stats ≠ [] := by
    intro h0
    rw [h0] at h
    simp at h
  have hlen : 0 < (pollCycle status job_ids done).stats.length :=
    List.length_pos.mpr hne
  have hsum := length_eq_count_sum (pollCycle status job_ids done).stats
    (pollCycle_stats_tallied status job_ids done)
  constructor
  · omega
  · exact_mod_cast Nat.pos_iff_ne_zero.mp hlen

/-- Witness for c9_breaker_denominator_positive at a concrete cycle with one
SUCCEEDED job. -/
theorem c9_breaker_denominator_positive_witness :
    0 < (pollCycle (fun _ => "SUCCEEDED") [0] ∅).stats.count "SUCCEEDED" +
        (pollCycle (fun _ => "SUCCEEDED") [0] ∅).stats.count "FAILED" +
        (pollCycle (fun _ => "SUCCEEDED") [0] ∅).stats.count "RUNNING" ∧
      (((pollCycle (fun _ => "SUCCEEDED") [0] ∅).stats.length : ℚ) ≠ 0) :=
  c9_breaker_denominator_positive (fun _ => "SUCCEEDED") [0] ∅ (by decide)

/-- C3 counterexample: two jobs, job 0 SUCCEEDED and job 1 RUNNING in every
round. After the first cycle job 0 is in done_jobs while the loop is still
pending on job 1, yet the next cycle queries job 0 again: the loop on line
223 iterates over all of job_ids, not only handles outside done_jobs. -/
theorem c3_counterexample :
    0 ∈ doneSeq (fun _ i => if i = 0 then "SUCCEEDED" else "RUNNING")
        [0, 1] 1 ∧
      0 < ([0, 1] : List Nat).length -
          (doneSeq (fun _ i => if i = 0 then "SUCCEEDED" else "RUNNING")
            [0, 1] 1).card ∧
      0 ∈ (pollCycle
            ((fun _ i => if i = 0 then "SUCCEEDED" else "RUNNING") 1) [0, 1]
            (doneSeq (fun _ i => if i = 0 then "SUCCEEDED" else "RUNNING")
              [0, 1] 1)).queried := by
  decide

/-- C3 amended: in every iteration of the monitoring loop a status query is
issued for every handle in job_ids, including handles already in done_jobs;
each queried status is classified as: SUCCEEDED or FAILED adds the handle to
done_jobs and the status to the per-cycle tally; RUNNING adds to the tally
only; any other status is neither tallied nor marks the handle done. -/
theorem c3_cycle_classification (status : Nat → String) (job_ids : List Nat)
    (done : Finset Nat) :
    (pollCycle status job_ids done).queried = job_ids ∧
      (pollCycle status job_ids done).done =
        done ∪
          (job_ids.filter (fun i => isTerminal (status i))).toFinset ∧
      (pollCycle status job_ids done).stats =
        (job_ids.map status).filter isTallied := by
  rw [pollCycle_eq]
  exact ⟨rfl, rfl, rfl⟩

/-- C8: across monitoring cycles the done_jobs set only ever grows, and it
always stays within the set of submitted job handles. -/
theorem c8_done_jobs_monotone (status : Nat → Nat → String)
    (job_ids : List Nat) (k : Nat) :
    doneSeq status job_ids k ⊆ doneSeq status job_ids (k + 1) ∧
      doneSeq status job_ids k ⊆ job_ids.toFinset := by
  have hfilter : ∀ (st : Nat → String),
      ((job_ids.filter (fun i => isTerminal (st i))).toFinset : Finset Nat) ⊆
        job_ids.toFinset := by
    intro st x hx
    rw [List.mem_toFinset] at hx ⊢
    exact List.mem_of_mem_filter hx
  constructor
  · show doneSeq status job_ids k ⊆
      (pollCycle (status k) job_ids (doneSeq status job_ids k)).done
    rw [pollCycle_eq]
    exact Finset.subset_union_left
  · induction k with
    | zero => simp [doneSeq]
    | succ k ih =>
      show (pollCycle (status k) job_ids (doneSeq status job_ids k)).done ⊆ _
      rw [pollCycle_eq]
      exact Finset.union_subset ih (hfilter (status k))

/-- Membership in the submitted-handle list of the submission loop: every
submitted handle is the position of a descriptor at or after the start index,
within the list, whose done flag is false. -/
theorem submit_from_mem (timed_out : Nat → Bool) (max_runs : Option Nat) :
    ∀ (ds : List JobDescriptor) (i j : Nat),
      j ∈ (submit_from timed_out max_runs i ds).1 →
      i ≤ j ∧ j - i < ds.length ∧ (ds.getD (j - i) default).done = false := by
  intro ds
  induction ds with
  | nil => intro i j h; simp [submit_from] at h
  | cons p rest ih =>
    intro i j h
    simp only [submit_from] at h
    by_cases ht : timed_out i = true
    · simp [ht] at h
    · by_cases hd : p.done = true
      · rw [if_neg (by simp [ht]), if_pos hd] at h
        obtain ⟨h1, h2, h3⟩ := ih (i + 1) j h
        have hji : j - i = (j - (i + 1)) + 1 := by omega
        refine ⟨by omega, by simp; omega, ?_⟩
        rw [hji]
        simpa using h3
      · rw [if_neg (by simp [ht]), if_neg (by simp [hd])] at h
        have step : ∀ hmem : j = i ∨ j ∈ (submit_from timed_out max_runs (i + 1) rest).1,
            i ≤ j ∧ j - i < (p :: rest).length ∧
              ((p :: rest).getD (j - i) default).done = false := by
          rintro (rfl | hmem)
          · refine ⟨le_refl j, by simp, ?_⟩
            simp [Nat.sub_self]
            simpa using hd
          · obtain ⟨h1, h2, h3⟩ := ih (i + 1) j hmem
            have hji : j - i = (j - (i + 1)) + 1 := by omega
            refine ⟨by omega, by simp; omega, ?_⟩
            rw [hji]
            simpa using h3
        cases max_runs with
        | some n =>
          by_cases hn : n ≤ i
          · simp [hn] at h
          · simp only [hn, if_false, if_neg hn] at h
            exact step (by simpa using h)
        | none => exact step (by simpa using h)

/-- C6: a descriptor with done == true is never submitted and no handle for
it ever appears among the submitted job ids: every submitted handle points at
an in-range descriptor whose done flag is false. -/
theorem c6_done_descriptors_skipped (timed_out : Nat → Bool)
    (max_runs : Option Nat) (job_params : List JobDescriptor) (j : Nat)
    (hj : j ∈ (submit_jobs timed_out max_runs job_params).1) :
    j < job_params.length ∧ (job_params.getD j default).done = false := by
  obtain ⟨h1, h2, h3⟩ :=
    submit_from_mem timed_out max_runs job_params 0 j hj
  rw [Nat.sub_zero] at h2 h3
  exact ⟨h2, h3⟩

/-- Witness for c6_done_descriptors_skipped: one non-done descriptor is
submitted as handle 0. -/
theorem c6_done_descriptors_skipped_witness :
    0 < ([(⟨false, "x"⟩ : JobDescriptor)] : List JobDescriptor).length ∧
      (([(⟨false, "x"⟩ : JobDescriptor)] : List JobDescriptor).getD 0
          default).done = false :=
  c6_done_descriptors_skipped (fun _ => false) none [⟨false, "x"⟩] 0
    (by decide)

/-- The submission loop never sets the aborted flag when no timeout check
breaches. -/
theorem submit_from_not_aborted (max_runs : Option Nat) :
    ∀ (ds : List JobDescriptor) (i : Nat),
      (submit_from (fun _ => false) max_runs i ds).2 = false := by
  intro ds
  induction ds with
  | nil => intro i; simp [submit_from]
  | cons p rest ih =>
    intro i
    simp only [submit_from]
    by_cases hd : p.done = true
    · simp [hd, ih]
    · cases max_runs with
      | some n =>
        by_cases hn : n ≤ i
        · simp [hd, hn]
        · simp [hd, hn, ih]
      | none => simp [hd, ih]

/-- Count of handles submitted by the loop from start index i with max_runs
set to n: the non-done descriptors among the first n - i remaining
positions. -/
theorem submit_from_length (n : Nat) :
    ∀ (ds : List JobDescriptor) (i : Nat),
      (submit_from (fun _ => false) (some n) i ds).1.length =
        ((ds.take (n - i)).filter (fun p => !p.done)).length := by
  intro ds
  induction ds with
  | nil => intro i; simp [submit_from]
  | cons p rest ih =>
    intro i
    simp only [submit_from]
    by_cases hd : p.done = true
    · rw [if_neg (by simp), if_pos hd, ih (i + 1)]
      by_cases hn : n ≤ i
      · have h0 : n - i = 0 := by omega
        have h1 : n - (i + 1) = 0 := by omega
        simp [h0, h1]
      · obtain ⟨m, hm⟩ : ∃ m, n - i = m + 1 := ⟨n - i - 1, by omega⟩
        have h1 : n - (i + 1) = m := by omega
        simp [hm, h1, List.filter_cons, hd]
    · rw [if_neg (by simp), if_neg (by simp [hd])]
      by_cases hn : n ≤ i
      · have h0 : n - i = 0 := by omega
        simp [hn, h0]
      · obtain ⟨m, hm⟩ : ∃ m, n - i = m + 1 := ⟨n - i - 1, by omega⟩
        have h1 : n - (i + 1) = m := by omega
        rw [if_neg hn]
        simp [hm, h1, List.filter_cons, hd, ih (i + 1)]

/-- C2 counterexample: three descriptors of which the first is already done
and max_runs = 2 (less than the descriptor count 3). The claim demands
exactly 2 submissions, but the source breaks on the enumerate index reaching
max_runs, so only the descriptor at position 1 is submitted: 1 job, not 2. -/
theorem c2_counterexample :
    (submit_jobs (fun _ => false) (some 2)
        [⟨true, "a"⟩, ⟨false, "b"⟩, ⟨false, "c"⟩]).1 = [1] ∧
      (submit_jobs (fun _ => false) (some 2)
        [⟨true, "a"⟩, ⟨false, "b"⟩, ⟨false, "c"⟩]).1.length ≠ 2 := by
  decide

/-- C2 amended: with max_runs = N and no timeout breach, submission stops at
enumerate index N, so the number of submitted jobs equals the number of
descriptors with done == false among the first N list positions; the
remaining descriptors are simply left unsubmitted and the submission phase
ends normally, nothing is marked failed. -/
theorem c2_max_runs_caps_by_position (N : Nat)
    (job_params : List JobDescriptor) :
    (submit_jobs (fun _ => false) (some N) job_params).1.length =
        ((job_params.take N).filter (fun p => !p.done)).length ∧
      (submit_jobs (fun _ => false) (some N) job_params).2 = false := by
  constructor
  · rw [submit_jobs, submit_from_length N job_params 0]
    simp
  · exact submit_from_not_aborted (some N) job_params 0

/-- C10: the test parameter defaults to true, and under it run truncates any
prepared list longer than two to its first two elements before any
submission, independently of max_runs: only handles of the first two
descriptors can be submitted, and combine receives exactly the first two
descriptors. -/
theorem c10_default_test_truncates (job_params : List JobDescriptor)
    (h : job_params.length > 2) (timed_out : Nat → Bool)
    (max_runs : Option Nat) :
    testDefault = true ∧
      run_truncate testDefault job_params = job_params.take 2 ∧
      ∀ j ∈ (submit_jobs timed_out max_runs
          (run_truncate testDefault job_params)).1, j < 2 := by
  have htr : run_truncate testDefault job_params = job_params.take 2 := by
    simp [run_truncate, testDefault, h]
  refine ⟨rfl, htr, ?_⟩
  intro j hj
  obtain ⟨h1, h2, h3⟩ :=
    submit_from_mem timed_out max_runs _ 0 j hj
  rw [htr, List.length_take] at h2
  omega

/-- Witness for c10_default_test_truncates on a three-element descriptor
list. -/
theorem c10_default_test_truncates_witness :
    testDefault = true ∧
      run_truncate testDefault
          [(⟨false, "a"⟩ : JobDescriptor), ⟨false, "b"⟩, ⟨false, "c"⟩] =
        ([(⟨false, "a"⟩ : JobDescriptor), ⟨false, "b"⟩,
          ⟨false, "c"⟩] : List JobDescriptor).take 2 ∧
      ∀ j ∈ (submit_jobs (fun _ => false) none
          (run_truncate testDefault
            [(⟨false, "a"⟩ : JobDescriptor), ⟨false, "b"⟩,
              ⟨false, "c"⟩])).1, j < 2 :=
  c10_default_test_truncates [⟨false, "a"⟩, ⟨false, "b"⟩, ⟨false, "c"⟩]
    (by decide) (fun _ => false) none

/-- Closed form of the final re-check loop, for any starting accumulator:
every id is queried once, terminal statuses are tallied in order, and each
non-terminal id raises the unexplained flag and gets a terminate_job call. -/
theorem foldl_finalStep (status : Nat → String) (ids : List Nat) :
    ∀ acc : FinalScan,
      ids.foldl (finalStep status) acc =
        ⟨acc.stats ++ (ids.map status).filter isTerminal,
         acc.unexplained || ids.any (fun i => !(isTerminal (status i))),
         acc.terms ++ (ids.filter (fun i => !(isTerminal (status i)))).map
           (fun i => TermCall.single i lastCheckReason),
         acc.queried ++ ids⟩ := by
  induction ids with
  | nil => intro acc; simp
  | cons a ids ih =>
    intro acc
    rw [List.foldl_cons, ih (finalStep status acc a)]
    by_cases h1 : isTerminal (status a) = true
    · have hps : finalStep status acc a =
          ⟨acc.stats ++ [status a], acc.unexplained, acc.terms,
            acc.queried ++ [a]⟩ := by
        simp [finalStep, h1]
      rw [hps]
      simp [List.filter_cons, h1, List.append_assoc]
    · have h1' : isTerminal (status a) = false := by simpa using h1
      have hps : finalStep status acc a =
          ⟨acc.stats, true, acc.terms ++ [TermCall.single a lastCheckReason],
            acc.queried ++ [a]⟩ := by
        simp [finalStep, h1']
      rw [hps]
      simp [List.filter_cons, h1', List.append_assoc]

theorem finalScan_eq (status : Nat → String) (job_ids : List Nat) :
    finalScan status job_ids =
      ⟨(job_ids.map status).filter isTerminal,
       job_ids.any (fun i => !(isTerminal (status i))),
       (job_ids.filter (fun i => !(isTerminal (status i)))).map
         (fun i => TermCall.single i lastCheckReason),
       job_ids⟩ := by
  rw [finalScan, foldl_finalStep]
  simp

/-- C7: once the monitoring loop exits normally (no job pending), the run
performs the final re-check, which queries every handle exactly once more;
if some handle is still neither SUCCEEDED nor FAILED, that handle receives a
terminate_job call and the whole run ends by raising BatchJobException, which
propagates to the caller as the outcome of _monitor_batch_jobs; if every
handle is terminal, no such error is raised. -/
theorem c7_final_recheck (status : Nat → Nat → String)
    (timed_out : Nat → Bool) (sr : ℚ) (job_ids : List Nat)
    (done : Finset Nat) (fuel cycle : Nat)
    (hdone : job_ids.length - done.card = 0) :
    monitor_batch_jobs status timed_out sr job_ids fuel cycle done =
        finalCheck (status cycle) sr job_ids ∧
      (finalScan (status cycle) job_ids).queried = job_ids ∧
      (∀ i ∈ job_ids, isTerminal (status cycle i) = false →
        TermCall.single i lastCheckReason ∈
            (finalCheck (status cycle) sr job_ids).2 ∧
          (finalCheck (status cycle) sr job_ids).1 =
            Outcome.unexplainedJob) ∧
      ((∀ i ∈ job_ids, isTerminal (status cycle i) = true) →
        (finalCheck (status cycle) sr job_ids).1 ≠ Outcome.unexplainedJob) := by
  refine ⟨?_, ?_, ?_, ?_⟩
  · cases fuel <;> simp [monitor_batch_jobs, hdone]
  · rw [finalScan_eq]
  · intro i hi hnt
    have hflag : (finalScan (status cycle) job_ids).unexplained = true := by
      rw [finalScan_eq]
      simp only [List.any_eq_true]
      exact ⟨i, hi, by simp [hnt]⟩
    have hterm : TermCall.single i lastCheckReason ∈
        (finalScan (status cycle) job_ids).terms := by
      rw [finalScan_eq]
      simp only [List.mem_map]
      exact ⟨i, List.mem_filter.mpr ⟨hi, by simp [hnt]⟩, rfl⟩
    rw [finalCheck]
    simp only [hflag, if_true]
    exact ⟨hterm, trivial⟩
  · intro hall
    have hflag : (finalScan (status cycle) job_ids).unexplained = false := by
      rw [finalScan_eq]
      simp only [List.any_eq_false]
      intro i hi
      simp [hall i hi]
    rw [finalCheck]
    simp only [hflag, Bool.false_eq_true, if_false]
    by_cases hg : 0 < (finalScan (status cycle) job_ids).stats.dedup.length
    · simp only [hg, if_true]
      cases assert_success sr job_ids (finalScan (status cycle) job_ids).stats
        with
      | none => simp
      | some tc => simp
    · simp only [hg, if_false]
      simp

/-- Witness for c7_final_recheck: one handle, already counted done, whose
final status query still answers RUNNING. -/
theorem c7_final_recheck_witness :
    monitor_batch_jobs (fun _ _ => "RUNNING") (fun _ => false) 1 [0] 0 0
          {0} =
        finalCheck ((fun _ _ => "RUNNING") 0) 1 [0] ∧
      (finalScan ((fun _ _ => "RUNNING") 0) [0]).queried = [0] ∧
      (∀ i ∈ [0], isTerminal ((fun _ _ => "RUNNING") 0 i) = false →
        TermCall.single i lastCheckReason ∈
            (finalCheck ((fun _ _ => "RUNNING") 0) 1 [0]).2 ∧
          (finalCheck ((fun _ _ => "RUNNING") 0) 1 [0]).1 =
            Outcome.unexplainedJob) ∧
      ((∀ i ∈ [0], isTerminal ((fun _ _ => "RUNNING") 0 i) = true) →
        (finalCheck ((fun _ _ => "RUNNING") 0) 1 [0]).1 ≠
          Outcome.unexplainedJob) :=
  c7_final_recheck (fun _ _ => "RUNNING") (fun _ => false) 1 [0] {0} 0 0
    (by decide)

/-- Counting one tallied key in a cycle tally recovers the number of jobs
whose query answered that key this cycle. -/
theorem count_key_filter (f : Nat → String) (key : String)
    (hkey : isTallied key = true) (ids : List Nat) :
    ((ids.map f).filter isTallied).count key =
      (ids.filter (fun j => f j == key)).length := by
  induction ids with
  | nil => simp
  | cons a ids ih =>
    simp only [List.map_cons, List.filter_cons]
    by_cases h1 : isTallied (f a) = true
    · by_cases h2 : (f a == key) = true
      · simp [h1, h2, List.count_cons, ih]
      · simp [h1, h2, List.count_cons, ih]
    · have h2 : (f a == key) = false := by
        by_contra hc
        have heq : f a = key := by simpa using hc
        rw [heq] at h1
        exact h1 hkey
      simp [h1, h2, ih]

/-- C4: a failed single-job status query is swallowed at the per-poll level.
The query failure of BatchClient.get_job_status is modelled from the spec as
the answer queryErrorStatus, outside the three tallied statuses. For a job i
whose query fails this cycle: i is not marked done by the cycle, the FAILED
tally of the cycle counts exactly the jobs whose query answered FAILED, to
which i does not belong, and i is queried again in the next cycle; moreover a
cycle in which every query fails issues no termination, leaves done_jobs
unchanged and simply advances the loop to the next cycle. -/
theorem c4_query_error_swallowed (status : Nat → Nat → String)
    (timed_out : Nat → Bool) (sr : ℚ) (job_ids : List Nat)
    (done : Finset Nat) (c i fuel : Nat)
    (hi : i ∈ job_ids) (herr : status c i = queryErrorStatus) :
    (i ∈ (pollCycle (status c) job_ids done).done ↔ i ∈ done) ∧
      (pollCycle (status c) job_ids done).stats.count "FAILED" =
        (job_ids.filter (fun j => status c j == "FAILED")).length ∧
      (status c i == "FAILED") = false ∧
      i ∈ (pollCycle (status (c + 1)) job_ids
            (pollCycle (status c) job_ids done).done).queried ∧
      ((∀ j ∈ job_ids, status c j = queryErrorStatus) →
        0 < job_ids.length - done.card → timed_out c = false →
        (pollCycle (status c) job_ids done).done = done ∧
          monitor_batch_jobs status timed_out sr job_ids (fuel + 1) c done =
            monitor_batch_jobs status timed_out sr job_ids fuel (c + 1)
              done) := by
  have herrterm : isTerminal queryErrorStatus = false := by decide
  have herrtallied : isTallied queryErrorStatus = false := by decide
  refine ⟨?_, ?_, ?_, ?_, ?_⟩
  · rw [pollCycle_eq]
    simp only [Finset.mem_union, List.mem_toFinset, List.mem_filter]
    constructor
    · rintro (h | ⟨hmem, hterm⟩)
      · exact h
      · rw [herr, herrterm] at hterm
        cases hterm
    · exact fun h => Or.inl h
  · rw [pollCycle_eq]
    exact count_key_filter (status c) "FAILED" (by decide) job_ids
  · rw [herr]
    decide
  · rw [pollCycle_eq]
    simpa using hi
  · intro hall hpend ht
    have hstats : (pollCycle (status c) job_ids done).stats = [] := by
      rw [pollCycle_eq]
      simp only [List.filter_eq_nil_iff]
      intro s hs
      obtain ⟨j, hj, rfl⟩ := List.mem_map.mp hs
      rw [hall j hj, herrtallied]
      simp
    have hdone : (pollCycle (status c) job_ids done).done = done := by
      rw [pollCycle_eq]
      have : job_ids.filter (fun j => isTerminal (status c j)) = [] := by
        simp only [List.filter_eq_nil_iff]
        intro j hj
        rw [hall j hj, herrterm]
        simp
      simp [this]
    refine ⟨hdone, ?_⟩
    rw [monitor_batch_jobs]
    rw [if_pos hpend, ht]
    simp [hstats, hdone]

/-- Witness for c4_query_error_swallowed: a single job whose queries always
fail. -/
theorem c4_query_error_swallowed_witness :
    (0 ∈ (pollCycle ((fun _ _ => queryErrorStatus) 0) [0] ∅).done ↔
        0 ∈ (∅ : Finset Nat)) ∧
      (pollCycle ((fun _ _ => queryErrorStatus) 0) [0] ∅).stats.count
          "FAILED" =
        (([0] : List Nat).filter
          (fun j => (fun _ _ => queryErrorStatus) 0 j == "FAILED")).length ∧
      ((fun _ _ => queryErrorStatus) 0 0 == "FAILED") = false ∧
      0 ∈ (pollCycle ((fun _ _ => queryErrorStatus) (0 + 1)) [0]
            (pollCycle ((fun _ _ => queryErrorStatus) 0) [0] ∅).done).queried ∧
      ((∀ j ∈ [0], (fun _ _ => queryErrorStatus) 0 j = queryErrorStatus) →
        0 < ([0] : List Nat).length - (∅ : Finset Nat).card →
        (fun _ => false) 0 = false →
        (pollCycle ((fun _ _ => queryErrorStatus) 0) [0] ∅).done = ∅ ∧
          monitor_batch_jobs (fun _ _ => queryErrorStatus) (fun _ => false) 1
              [0] (3 + 1) 0 ∅ =
            monitor_batch_jobs (fun _ _ => queryErrorStatus) (fun _ => false)
              1 [0] 3 (0 + 1) ∅) :=
  c4_query_error_swallowed (fun _ _ => queryErrorStatus) (fun _ => false) 1
    [0] ∅ 0 0 3 (by decide) rfl

/-- When the while-loop condition fails, the monitor goes straight to the
final re-check, whatever the fuel. -/
theorem monitor_exit (status : Nat → Nat → String) (timed_out : Nat → Bool)
    (sr : ℚ) (job_ids : List Nat) (fuel cycle : Nat) (done : Finset Nat)
    (hpend : job_ids.length - done.card = 0) :
    monitor_batch_jobs status timed_out sr job_ids fuel cycle done =
      finalCheck (status cycle) sr job_ids := by
  cases fuel <;> simp [monitor_batch_jobs, hpend]

/-- One while-loop iteration in which neither the timeout nor the breaker
fires advances to the next cycle with the updated done_jobs set. -/
theorem monitor_step (status : Nat → Nat → String) (timed_out : Nat → Bool)
    (sr : ℚ) (job_ids : List Nat) (fuel cycle : Nat) (done : Finset Nat)
    (hpend : 0 < job_ids.length - done.card)
    (ht : timed_out cycle = false)
    (hnone : assert_success sr job_ids
      (pollCycle (status cycle) job_ids done).stats = none) :
    monitor_batch_jobs status timed_out sr job_ids (fuel + 1) cycle done =
      monitor_batch_jobs status timed_out sr job_ids fuel (cycle + 1)
        (pollCycle (status cycle) job_ids done).done := by
  rw [monitor_batch_jobs, if_pos hpend, ht]
  simp only [Bool.false_eq_true, if_false]
  by_cases hg :
      0 < (pollCycle (status cycle) job_ids done).stats.dedup.length
  · simp [hg, hnone]
  · simp [hg]

/-- The breaker does not fire on a tally with no FAILED entry, as long as the
required success rate is at most 1. -/
theorem assert_success_none_of_no_failed (sr : ℚ) (job_ids : List Nat)
    (t : List String) (h0 : t.count "FAILED" = 0) (h1 : sr ≤ 1) :
    assert_success sr job_ids t = none := by
  apply (assert_success_none_iff sr job_ids t).mpr
  rw [failure_rate_of, h0]
  simp only [Nat.cast_zero, zero_div]
  linarith

/-- A cycle in which no query answers FAILED produces a tally with FAILED
count zero. -/
theorem pollCycle_no_failed (status : Nat → String) (job_ids : List Nat)
    (done : Finset Nat) (hnf : ∀ i ∈ job_ids, status i ≠ "FAILED") :
    (pollCycle status job_ids done).stats.count "FAILED" = 0 := by
  rw [pollCycle_eq]
  rw [count_key_filter status "FAILED" (by decide) job_ids]
  have : job_ids.filter (fun j => status j == "FAILED") = [] := by
    simp only [List.filter_eq_nil_iff]
    intro j hj
    simp [hnf j hj]
  simp [this]

/-- The final re-check returns completed with no termination when every
handle answers SUCCEEDED, given a success rate of at most 1. -/
theorem finalCheck_all_succeeded (status1 : Nat → String) (sr : ℚ)
    (job_ids : List Nat) (h1 : sr ≤ 1)
    (hs : ∀ i ∈ job_ids, status1 i = "SUCCEEDED") :
    finalCheck status1 sr job_ids = (Outcome.completed, []) := by
  have hflag : (finalScan status1 job_ids).unexplained = false := by
    rw [finalScan_eq]
    simp only [List.any_eq_false]
    intro i hi
    simp [hs i hi, isTerminal]
  have hterms : (finalScan status1 job_ids).terms = [] := by
    rw [finalScan_eq]
    have : job_ids.filter (fun i => !(isTerminal (status1 i))) = [] := by
      simp only [List.filter_eq_nil_iff]
      intro i hi
      simp [hs i hi, isTerminal]
    simp [this]
  have hcount : (finalScan status1 job_ids).stats.count "FAILED" = 0 := by
    rw [finalScan_eq]
    apply List.count_eq_zero.mpr
    intro hmem
    obtain ⟨hmem2, _⟩ := List.mem_filter.mp hmem
    obtain ⟨i, hi, heq⟩ := List.mem_map.mp hmem2
    rw [hs i hi] at heq
    exact absurd heq (by decide)
  rw [finalCheck]
  simp only [hflag, Bool.false_eq_true, if_false]
  by_cases hg : 0 < (finalScan status1 job_ids).stats.dedup.length
  · simp only [hg, if_true,
      assert_success_none_of_no_failed sr job_ids _ hcount h1, hterms]
  · simp only [hg, if_false, hterms]

/-- When the done set covers every submitted handle of a duplicate-free list,
the while-loop condition fails. -/
theorem pending_zero (job_ids : List Nat) (done : Finset Nat)
    (hnd : job_ids.Nodup) (hsub : done ⊆ job_ids.toFinset)
    (hcov : ∀ i ∈ job_ids, i ∈ done) :
    job_ids.length - done.card = 0 := by
  have hdone : done = job_ids.toFinset :=
    Finset.Subset.antisymm hsub
      (fun x hx => hcov x (List.mem_toFinset.mp hx))
  rw [hdone, List.toFinset_card_of_nodup hnd]
  omega

/-- Main induction for the all-succeed run: with no timeout breach, no FAILED
answer ever, SUCCEEDED absorbing, and every job answering SUCCEEDED from
round K on, any loop state whose done set contains only currently-SUCCEEDED
jobs reaches the completed outcome with no termination, given enough fuel. -/
theorem monitor_all_succeed_aux (status : Nat → Nat → String)
    (timed_out : Nat → Bool) (sr : ℚ) (job_ids : List Nat) (K : Nat)
    (hnd : job_ids.Nodup) (h1 : sr ≤ 1)
    (ht : ∀ c, timed_out c = false)
    (hnf : ∀ c, ∀ i ∈ job_ids, status c i ≠ "FAILED")
    (habs : ∀ c, ∀ i ∈ job_ids,
      status c i = "SUCCEEDED" → status (c + 1) i = "SUCCEEDED")
    (hK : ∀ c, K ≤ c → ∀ i ∈ job_ids, status c i = "SUCCEEDED") :
    ∀ (fuel cycle : Nat) (done : Finset Nat),
      done ⊆ job_ids.toFinset →
      (∀ i ∈ done, status cycle i = "SUCCEEDED") →
      (K < cycle → ∀ i ∈ job_ids, i ∈ done) →
      K + 1 ≤ cycle + fuel →
      monitor_batch_jobs status timed_out sr job_ids fuel cycle done =
        (Outcome.completed, []) := by
  intro fuel
  induction fuel with
  | zero =>
    intro cycle done hsub hsucc hcov hfuel
    have hcov' : ∀ i ∈ job_ids, i ∈ done := hcov (by omega)
    have hall : ∀ i ∈ job_ids, status cycle i = "SUCCEEDED" :=
      fun i hi => hsucc i (hcov' i hi)
    rw [monitor_exit status timed_out sr job_ids 0 cycle done
      (pending_zero job_ids done hnd hsub hcov')]
    exact finalCheck_all_succeeded (status cycle) sr job_ids h1 hall
  | succ fuel ih =>
    intro cycle done hsub hsucc hcov hfuel
    by_cases hpend : 0 < job_ids.length - done.card
    · have hnone : assert_success sr job_ids
          (pollCycle (status cycle) job_ids done).stats = none :=
        assert_success_none_of_no_failed sr job_ids _
          (pollCycle_no_failed (status cycle) job_ids done (hnf cycle)) h1
      rw [monitor_step status timed_out sr job_ids fuel cycle done hpend
        (ht cycle) hnone]
      have hdone' : (pollCycle (status cycle) job_ids done).done =
          done ∪ (job_ids.filter
            (fun i => isTerminal (status cycle i))).toFinset := by
        rw [pollCycle_eq]
      apply ih (cycle + 1)
      · rw [hdone']
        apply Finset.union_subset hsub
        intro x hx
        rw [List.mem_toFinset] at hx ⊢
        exact List.mem_of_mem_filter hx
      · intro i hidone
        rw [hdone'] at hidone
        rcases Finset.mem_union.mp hidone with hin | hin
        · exact habs cycle i
            (List.mem_toFinset.mp (hsub hin)) (hsucc i hin)
        · rw [List.mem_toFinset, List.mem_filter] at hin
          obtain ⟨hin, hterm⟩ := hin
          have hsucc1 : status cycle i = "SUCCEEDED" := by
            rcases (isTerminal_iff (status cycle i)).mp hterm with h | h
            · exact h
            · exact absurd h (hnf cycle i hin)
          exact habs cycle i hin hsucc1
      · intro hlt i hi
        rw [hdone']
        apply Finset.mem_union_right
        rw [List.mem_toFinset, List.mem_filter]
        refine ⟨hi, ?_⟩
        rw [hK cycle (by omega) i hi]
        decide
      · omega
    · have hpend0 : job_ids.length - done.card = 0 := by omega
      have hdone : done = job_ids.toFinset := by
        apply Finset.eq_of_subset_of_card_le hsub
        rw [List.toFinset_card_of_nodup hnd]
        omega
      have hall : ∀ i ∈ job_ids, status cycle i = "SUCCEEDED" := by
        intro i hi
        exact hsucc i (by rw [hdone]; exact List.mem_toFinset.mpr hi)
      rw [monitor_exit status timed_out sr job_ids (fuel + 1) cycle done
        hpend0]
      exact finalCheck_all_succeeded (status cycle) sr job_ids h1 hall

/-- C5: for any run in which every submitted job reaches SUCCEEDED (no query
ever answers FAILED, SUCCEEDED persists once reported, and from some round K
every job reports SUCCEEDED), in which the deadline never breaches, and whose
success_rate lies in the interval from 0 to 1, the monitoring phase ends in
the completed outcome and no terminate call, single or bulk, is ever
issued. -/
theorem c5_all_succeed_completes (status : Nat → Nat → String)
    (timed_out : Nat → Bool) (sr : ℚ) (job_ids : List Nat) (K fuel : Nat)
    (hnd : job_ids.Nodup) (_h0 : 0 ≤ sr) (h1 : sr ≤ 1)
    (ht : ∀ c, timed_out c = false)
    (hnf : ∀ c, ∀ i ∈ job_ids, status c i ≠ "FAILED")
    (habs : ∀ c, ∀ i ∈ job_ids,
      status c i = "SUCCEEDED" → status (c + 1) i = "SUCCEEDED")
    (hK : ∀ c, K ≤ c → ∀ i ∈ job_ids, status c i = "SUCCEEDED")
    (hfuel : K + 1 ≤ fuel) :
    monitor_batch_jobs status timed_out sr job_ids fuel 0 ∅ =
      (Outcome.completed, []) :=
  monitor_all_succeed_aux status timed_out sr job_ids K hnd h1 ht hnf habs
    hK fuel 0 ∅ (by simp) (by simp)
    (fun h => absurd h (Nat.not_lt_zero K)) (by omega)

/-- Witness for c5_all_succeed_completes: two jobs that always answer
SUCCEEDED, success rate 1, fuel 1. -/
theorem c5_all_succeed_completes_witness :
    monitor_batch_jobs (fun _ _ => "SUCCEEDED") (fun _ => false) 1 [0, 1] 1
        0 ∅ =
      (Outcome.completed, []) :=
  c5_all_succeed_completes (fun _ _ => "SUCCEEDED") (fun _ => false) 1
    [0, 1] 0 1 (by decide) (by decide) (by decide) (fun _ => rfl)
    (by intro c i hi; show "SUCCEEDED" ≠ "FAILED"; decide)
    (fun _ i _ _ => rfl) (fun _ _ i _ => rfl) (by decide)

end Autobatch
